import Mathlib

/-
Verification of the Digest Validation & Quality Scoring Engine
(src/utils/validation.py, class DigestValidator).

Shallow embedding notes:
  * Python values reaching the validator are modelled by the inductive
    type `Value` (strings, ints, bools, None, lists, dicts).
  * Python exceptions are modelled with `Except PyErr`: operations such
    as `.get` on a non-dict or `.lower()` on a non-string return
    `Except.error`, mirroring AttributeError / TypeError / ValueError.
    The `try/except (ValueError, TypeError)` block of
    `_check_data_freshness` catches exactly the `valueErr` / `typeErr`
    constructors and lets `attrErr` propagate, as CPython does.
  * Python floats and datetimes are modelled by the rationals:
    a datetime is a rational number of seconds, a timedelta a rational
    difference, `timedelta(hours=h)` is `h * 3600` seconds.
  * `datetime.fromisoformat` is external library code; it is modelled by
    an abstract parameter `p : String -> Option (Rat x Bool)` returning
    the parsed time in seconds together with whether the parsed datetime
    is offset-aware (`none` models the ValueError raised on an
    unparseable string).  `datetime.now()` is offset-naive, so the
    subtraction `now - timestamp` raises TypeError when the timestamp is
    offset-aware — the `except (ValueError, TypeError)` converts that
    into an invalid-format error string even for a fresh timestamp.
  * String helpers (`lower`, `strip`, substring membership) are modelled
    on Lean strings; Python's `.lower()` / `.strip()` are Unicode-aware,
    the model's are ASCII-oriented, which is immaterial to the claims.
-/

/-- The single-quote character, used in the literal error messages. -/
def sqc : String := String.singleton (Char.ofNat 39)

/-- Exceptions the embedded code can raise. -/
inductive PyErr where
  | typeErr : String → PyErr
  | valueErr : String → PyErr
  | attrErr : String → PyErr

/-- Python values as they reach the validator. -/
inductive Value where
  | vStr : String → Value
  | vInt : Int → Value
  | vBool : Bool → Value
  | vNone : Value
  | vList : List Value → Value
  | vDict : List (String × Value) → Value

/-- First-match association lookup, modelling Python dict key lookup. -/
def lookupStr : List (String × Value) → String → Option Value
  | [], _ => none
  | (k, w) :: rest, key => if k == key then some w else lookupStr rest key

/-- Python truthiness (`if not x`): falsy values are None, False, 0,
empty string, empty list, empty dict. -/
def Value.truthy : Value → Bool
  | .vStr s => !(s == "")
  | .vInt n => !(n == 0)
  | .vBool b => b
  | .vNone => false
  | .vList [] => false
  | .vList (_ :: _) => true
  | .vDict [] => false
  | .vDict (_ :: _) => true

/-- `section.get(key, default)`: succeeds on dicts, raises
AttributeError on anything else. -/
def Value.get (v : Value) (k : String) (dflt : Value) : Except PyErr Value :=
  match v with
  | .vDict kvs => .ok ((lookupStr kvs k).getD dflt)
  | _ => .error (.attrErr "get")

/-- `s.lower()` on a string, character by character (ASCII case map,
sufficient for the names and sources the validator sees). -/
def strLower (s : String) : String := ⟨s.data.map Char.toLower⟩

/-- The whitespace characters Python `str.strip` removes (ASCII
space, tab, newline, carriage return, vertical tab, form feed). -/
def isPySpace (c : Char) : Bool :=
  c.toNat == 32 || c.toNat == 9 || c.toNat == 10 || c.toNat == 13 ||
    c.toNat == 11 || c.toNat == 12

/-- Drop leading whitespace from a character list. -/
def dropLeadSpace : List Char → List Char
  | [] => []
  | c :: cs => if isPySpace c then dropLeadSpace cs else c :: cs

/-- Python `s.strip()`: remove leading and trailing whitespace. -/
def strStrip (s : String) : String :=
  ⟨(dropLeadSpace ((dropLeadSpace s.data).reverse)).reverse⟩

/-- Fuel-driven body of `strReplace` (the fuel starts at the length of
the subject and only ever decreases while characters remain, so the
zero-fuel arm is unreachable). -/
def replFuel (pat rep : List Char) : Nat → List Char → List Char
  | 0, rest => rest
  | _ + 1, [] => []
  | fuel + 1, c :: cs =>
    if !pat.isEmpty && pat.isPrefixOf (c :: cs) then
      rep ++ replFuel pat rep fuel (List.drop (pat.length - 1) cs)
    else c :: replFuel pat rep fuel cs

/-- Python `s.replace(pat, rep)`: replace every non-overlapping
occurrence left to right (the empty-pattern case, which the source
never exercises, is modelled as the identity). -/
def strReplace (s pat rep : String) : String :=
  ⟨replFuel pat.data rep.data s.data.length s.data⟩

/-- `x.lower()`: succeeds on strings, raises AttributeError otherwise. -/
def Value.lower : Value → Except PyErr String
  | .vStr s => .ok (strLower s)
  | _ => .error (.attrErr "lower")

mutual
/-- Python `repr` of a value (string escaping inside repr is not
modelled; it never reaches a proved statement). -/
def Value.pyRepr : Value → String
  | .vStr s => sqc ++ s ++ sqc
  | .vInt n => toString n
  | .vBool b => if b then "True" else "False"
  | .vNone => "None"
  | .vList xs => "[" ++ String.intercalate ", " (pyReprList xs) ++ "]"
  | .vDict kvs => "\x7b" ++ String.intercalate ", " (pyReprDict kvs) ++ "\x7d"

/-- reprs of the elements of a list value. -/
def pyReprList : List Value → List String
  | [] => []
  | x :: xs => x.pyRepr :: pyReprList xs

/-- reprs of the entries of a dict value. -/
def pyReprDict : List (String × Value) → List String
  | [] => []
  | (k, w) :: kvs => (sqc ++ k ++ sqc ++ ": " ++ w.pyRepr) :: pyReprDict kvs
end

/-- Python `str` of a value, as used by f-string interpolation. -/
def Value.pyStr : Value → String
  | .vStr s => s
  | v => v.pyRepr

/-- Iteration `for x in v`: lists yield elements, strings yield
one-character strings, dicts yield their keys; other values raise
TypeError. -/
def Value.toIterList : Value → Except PyErr (List Value)
  | .vList xs => .ok xs
  | .vStr s => .ok (s.data.map (fun c => .vStr (String.singleton c)))
  | .vDict kvs => .ok (kvs.map (fun kv => .vStr kv.1))
  | _ => .error (.typeErr "object is not iterable")

/-- `v == s` for a string `s`, as Python `==` inside `in` over a list. -/
def valEqStr (v : Value) (s : String) : Bool :=
  match v with
  | .vStr t => t == s
  | _ => false

/-- Substring test helper: does the character list contain `pat` as a
contiguous run? -/
def subAux (pat : List Char) : List Char → Bool
  | [] => pat.isEmpty
  | c :: rest => pat.isPrefixOf (c :: rest) || subAux pat rest

/-- Python `pat in hay` for strings: substring containment. -/
def strContainsSub (hay pat : String) : Bool := subAux pat.data hay.data

/-- `kvs` has key `k` (Python `k in dict`). -/
def hasKey (kvs : List (String × Value)) (k : String) : Bool :=
  kvs.any (fun kv => kv.1 == k)

/-- Python `needle in container` for a string needle: substring test
on strings, element equality on lists, key membership on dicts,
TypeError otherwise. -/
def pyContainsStr (container : Value) (needle : String) : Except PyErr Bool :=
  match container with
  | .vStr s => .ok (strContainsSub s needle)
  | .vList xs => .ok (xs.any (fun x => valEqStr x needle))
  | .vDict kvs => .ok (hasKey kvs needle)
  | _ => .error (.typeErr "argument of type is not iterable")

/-- Lexicographic comparison of character lists by code point, the
order Python `sorted` uses on strings. -/
def lexLe : List Char → List Char → Bool
  | [], _ => true
  | _ :: _, [] => false
  | a :: as, b :: bs =>
    if a.toNat < b.toNat then true
    else if b.toNat < a.toNat then false
    else lexLe as bs

/-- String order by code points. -/
def strLe (a b : String) : Bool := lexLe a.data b.data

/-- Insert into a sorted list of strings. -/
def insertStr (x : String) : List String → List String
  | [] => [x]
  | y :: ys => if strLe x y then x :: y :: ys else y :: insertStr x ys

/-- Insertion sort on strings, modelling Python `sorted` on a set of
strings (set elements are distinct, so stability is immaterial). -/
def sortStrings : List String → List String
  | [] => []
  | x :: xs => insertStr x (sortStrings xs)

/-- One-decimal fixed-point rendering of a rational (Python
`f"{x:.1f}"`), rounding half to even. -/
def fmtFixed1 (q : ℚ) : String :=
  let aq : ℚ := |q| * 10
  let fl : ℤ := Rat.floor aq
  let fr : ℚ := aq - fl
  let n : ℤ :=
    if fr > 1/2 then fl + 1
    else if fr < 1/2 then fl
    else if fl % 2 = 0 then fl else fl + 1
  (if q < 0 then "-" else "") ++ toString (n / 10) ++ "." ++ toString (n % 10)

/-- Count how often `p` divides `n` (fuel-driven, fuel = n). -/
def countFactor (p : Nat) : Nat → Nat → Nat
  | 0, _ => 0
  | fuel + 1, n => if n % p == 0 && n > 1 then countFactor p fuel (n / p) + 1 else 0

/-- Rendering of the configured maximum age, as Python str() prints the
number: an int default such as 24 prints without a fractional part; a
float value — always a terminating decimal under the rational reading —
prints its exact decimal expansion (24.5, 0.25, ...) with trailing
zeros removed.  A non-terminating rational cannot arise from a Python
number; the fallback arm is unreachable in the faithful reading. -/
def pyNumStr (q : ℚ) : String :=
  if q.den = 1 then toString q.num
  else
    let a := countFactor 2 q.den q.den
    let b := countFactor 5 q.den q.den
    if q.den = 2 ^ a * 5 ^ b then
      let k := max a b
      let scaled := q.num.natAbs * (10 ^ k / q.den)
      let ip := scaled / 10 ^ k
      let frs := toString (scaled % 10 ^ k)
      let pad := String.mk (List.replicate (k - frs.length) (Char.ofNat 48)) ++ frs
      let trimmed :=
        String.mk ((pad.data.reverse.dropWhile (fun c => c == Char.ofNat 48)).reverse)
      (if q.num < 0 then "-" else "") ++ toString ip ++ "." ++ trimmed
    else toString q.num ++ "/" ++ toString q.den

/-- The module-level TRUSTED_SOURCES table of validation.py. -/
def TRUSTED_SOURCES : List (String × List String) := [
  ("weather", ["OpenWeather API", "Weather.com", "National Weather Service", "NOAA"]),
  ("sports", ["ESPN API", "The Sports DB", "Official team websites", "NBA.com",
              "NFL.com", "NHL.com", "Mock Sports Data"]),
  ("tech", ["TechCrunch", "The Verge", "Ars Technica", "Wired",
            "MIT Technology Review", "VentureBeat", "News API", "RSS Feeds"]),
  ("market", ["Alpha Vantage", "Yahoo Finance", "Bloomberg", "Reuters",
              "MarketWatch", "Alpha Vantage API"])]

/-- First-match lookup in the trusted-sources table. -/
def lookupTrusted : List (String × List String) → String → Option (List String)
  | [], _ => none
  | (k, l) :: rest, key => if k == key then some l else lookupTrusted rest key

/-- `TRUSTED_SOURCES.get(section_type, [])`. -/
def trustedFor (k : String) : List String :=
  (lookupTrusted TRUSTED_SOURCES k).getD []

/-- Constructor-time configuration of DigestValidator. -/
structure DigestValidator where
  max_data_age_hours : ℚ
  min_reliability_score : ℚ
  required_sections : List String

/-- `DigestValidator.__init__`: `required_sections or [...]` replaces
both `None` and an empty list by the four canonical names. -/
def mkDigestValidator (maxAge minRel : ℚ) (reqOpt : Option (List String)) :
    DigestValidator :=
  { max_data_age_hours := maxAge
    min_reliability_score := minRel
    required_sections :=
      match reqOpt with
      | some [] => ["weather", "sports", "tech", "market"]
      | some l => l
      | none => ["weather", "sports", "tech", "market"] }

/-- The validator with all-default configuration. -/
def defaultValidator : DigestValidator := mkDigestValidator 24 (4/5) none

/-- The per-iteration body of `{s.get("name", "").lower() for s in
sections}` in `_check_completeness`; any raise propagates. -/
def lowerNames : List Value → Except PyErr (List String)
  | [] => .ok []
  | s :: rest =>
    match s.get "name" (.vStr "") with
    | .error e => .error e
    | .ok n =>
      match n.lower with
      | .error e => .error e
      | .ok ln =>
        match lowerNames rest with
        | .error e => .error e
        | .ok others => .ok (ln :: others)

/-- `DigestValidator._check_completeness`.  Python forms the set of
lower-cased present names, subtracts it from the set of configured
required names (NOT lower-cased in the source), and, if the difference
is non-empty, emits one combined error over the sorted names.  Set
difference is modelled as filter + dedup; `sorted` as `sortStrings`. -/
def check_completeness (v : DigestValidator) (sections : Value) :
    Except PyErr (List String) :=
  match sections.toIterList with
  | .error e => .error e
  | .ok xs =>
    match lowerNames xs with
    | .error e => .error e
    | .ok present =>
      let missing :=
        sortStrings ((v.required_sections.filter
          (fun r => !(present.contains r))).dedup)
      if missing.isEmpty then .ok []
      else .ok ["Missing required sections: " ++ String.intercalate ", " missing]

/-- Modelled from the spec: the variant of `_check_completeness` the
spec describes, in which the required names are also lower-cased before
the comparison ("compare against required_sections (also
lower-cased)"). -/
def check_completeness_spec (v : DigestValidator) (sections : Value) :
    Except PyErr (List String) :=
  match sections.toIterList with
  | .error e => .error e
  | .ok xs =>
    match lowerNames xs with
    | .error e => .error e
    | .ok present =>
      let missing :=
        sortStrings (((v.required_sections.map strLower).filter
          (fun r => !(present.contains r))).dedup)
      if missing.isEmpty then .ok []
      else .ok ["Missing required sections: " ++ String.intercalate ", " missing]

/-- `datetime.fromisoformat` on a string argument: the abstract parser
`p` returns the time in seconds paired with whether the parsed datetime
carries a UTC offset (offset-aware); `none` models the ValueError
raised on an unparseable string. -/
def callFromIso (p : String → Option (ℚ × Bool)) (s : String) :
    Except PyErr (ℚ × Bool) :=
  match p s with
  | some ta => .ok ta
  | none => .error (.valueErr ("Invalid isoformat string: " ++ sqc ++ s ++ sqc))

/-- `datetime.fromisoformat` on an arbitrary value: non-strings raise
TypeError. -/
def callFromIsoV (p : String → Option (ℚ × Bool)) : Value → Except PyErr (ℚ × Bool)
  | .vStr s => callFromIso p s
  | _ => .error (.typeErr "fromisoformat: argument must be str")

/-- The timestamp-parsing conditional of `_check_data_freshness`:
`if "T" in timestamp_str: fromisoformat(timestamp_str.replace("Z",
"+00:00")) else: fromisoformat(timestamp_str)`.  `.replace` on a
non-string raises AttributeError, which the surrounding
`except (ValueError, TypeError)` does NOT catch. -/
def fromiso (p : String → Option (ℚ × Bool)) (tsv : Value) :
    Except PyErr (ℚ × Bool) :=
  match pyContainsStr tsv "T" with
  | .error e => .error e
  | .ok true =>
    match tsv with
    | .vStr s => callFromIso p (strReplace s "Z" "+00:00")
    | _ => .error (.attrErr "replace")
  | .ok false => callFromIsoV p tsv

/-- The net parse applied to a string timestamp. -/
def parseTS (p : String → Option (ℚ × Bool)) (s : String) : Option (ℚ × Bool) :=
  if strContainsSub s "T" then p (strReplace s "Z" "+00:00") else p s

/-- The stale-data error message: `f"{section_name}: Data is
{hours_old:.1f} hours old (max: {self.max_data_age_hours})"` where
`hours_old = age.total_seconds() / 3600`. -/
def fresh_err_msg (nm : Value) (age maxh : ℚ) : String :=
  nm.pyStr ++ ": Data is " ++ fmtFixed1 (age / 3600) ++ " hours old (max: " ++
    pyNumStr maxh ++ ")"

/-- The invalid-timestamp error message: `f"{section_name}: Invalid
timestamp format '{timestamp_str}': {e}"`. -/
def invalid_ts_msg (nm tsv : Value) (m : String) : String :=
  nm.pyStr ++ ": Invalid timestamp format " ++ sqc ++ tsv.pyStr ++ sqc ++ ": " ++ m

/-- The text of the TypeError CPython raises when the offset-naive
`datetime.now()` is subtracted against an offset-aware timestamp. -/
def naive_aware_msg : String :=
  "can" ++ sqc ++ "t subtract offset-naive and offset-aware datetimes"

/-- The body of the `try` block of `_check_data_freshness`: parse, then
`age = now - timestamp` — which raises TypeError when the parsed
timestamp is offset-aware, since `now = datetime.now()` is naive — and
compare against `timedelta(hours=max_data_age_hours)` (strict `>`). -/
def tryFresh (p : String → Option (ℚ × Bool)) (now : ℚ) (v : DigestValidator)
    (nm tsv : Value) : Except PyErr (List String) :=
  match fromiso p tsv with
  | .error e => .error e
  | .ok (t, aware) =>
    if aware then .error (.typeErr naive_aware_msg)
    else if v.max_data_age_hours * 3600 < now - t then
      .ok [fresh_err_msg nm (now - t) v.max_data_age_hours]
    else .ok []

/-- One loop iteration of `_check_data_freshness`: fetch name and
timestamp, report a falsy timestamp as missing, otherwise run the try
block, converting ValueError/TypeError into an error string and letting
any other exception propagate. -/
def freshness_section (p : String → Option (ℚ × Bool)) (now : ℚ) (v : DigestValidator)
    (sec : Value) : Except PyErr (List String) :=
  match sec.get "name" (.vStr "unknown") with
  | .error e => .error e
  | .ok nm =>
    match sec.get "timestamp" .vNone with
    | .error e => .error e
    | .ok tsv =>
      if !tsv.truthy then .ok [nm.pyStr ++ ": Missing timestamp"]
      else
        match tryFresh p now v nm tsv with
        | .ok errs => .ok errs
        | .error (.valueErr m) => .ok [invalid_ts_msg nm tsv m]
        | .error (.typeErr m) => .ok [invalid_ts_msg nm tsv m]
        | .error e => .error e

/-- The `for section in sections` loops of the three per-section
checks: each iteration contributes its error strings in order; a raise
aborts the whole check. -/
def loopErrors (f : Value → Except PyErr (List String)) :
    List Value → Except PyErr (List String)
  | [] => .ok []
  | x :: xs =>
    match f x with
    | .error e => .error e
    | .ok es =>
      match loopErrors f xs with
      | .error e => .error e
      | .ok rest => .ok (es ++ rest)

/-- `DigestValidator._check_data_freshness`. -/
def check_data_freshness (p : String → Option (ℚ × Bool)) (now : ℚ)
    (v : DigestValidator) (sections : Value) : Except PyErr (List String) :=
  match sections.toIterList with
  | .error e => .error e
  | .ok xs => loopErrors (freshness_section p now v) xs

/-- The generator `any(trusted_source.lower() in source.lower() for
trusted_source in trusted)`: lazily evaluated, so `source.lower()` is
only reached when the trusted list is non-empty. -/
def anyTrustedLower : List String → Value → Except PyErr Bool
  | [], _ => .ok false
  | t :: ts, src =>
    match src.lower with
    | .error e => .error e
    | .ok s => if strContainsSub s (strLower t) then .ok true else anyTrustedLower ts src

/-- One loop iteration of `_check_source_reliability`.  The method
reads no configuration: the trusted table is module-level state, and
`min_reliability_score` in particular is never consulted. -/
def source_section (_v : DigestValidator) (sec : Value) :
    Except PyErr (List String) :=
  match sec.get "name" (.vStr "unknown") with
  | .error e => .error e
  | .ok nm =>
    match sec.get "source" .vNone with
    | .error e => .error e
    | .ok source =>
      if !source.truthy then .ok [nm.pyStr ++ ": Missing source attribution"]
      else
        match nm.lower with
        | .error e => .error e
        | .ok stype =>
          let trusted := trustedFor stype
          match anyTrustedLower trusted source with
          | .error e => .error e
          | .ok isTrusted =>
            if !isTrusted && !trusted.isEmpty then
              .ok [nm.pyStr ++ ": Source " ++ sqc ++ source.pyStr ++ sqc ++
                   " not in trusted list. Trusted sources: " ++
                   String.intercalate ", " (trusted.take 3) ++ "..."]
            else .ok []

/-- `DigestValidator._check_source_reliability`. -/
def check_source_reliability (v : DigestValidator) (sections : Value) :
    Except PyErr (List String) :=
  match sections.toIterList with
  | .error e => .error e
  | .ok xs => loopErrors (source_section v) xs

/-- `section.get("content") or section.get("data")` on a section dict:
the first truthy of the two lookups (the `data` lookup result even if
falsy). -/
def resolvedContent (kvs : List (String × Value)) : Value :=
  let c := (lookupStr kvs "content").getD .vNone
  let d := (lookupStr kvs "data").getD .vNone
  if c.truthy then c else d

/-- One loop iteration of `_check_content_validity`. -/
def content_section (sec : Value) : Except PyErr (List String) :=
  match sec.get "name" (.vStr "unknown") with
  | .error e => .error e
  | .ok nm =>
    match sec with
    | .vDict kvs =>
      if !(hasKey kvs "content") && !(hasKey kvs "data") then
        .ok [nm.pyStr ++ ": Missing content or data field"]
      else
        match resolvedContent kvs with
        | .vStr s =>
          if (strStrip s).length < 20 then
            .ok [nm.pyStr ++ ": Content too short (" ++ toString s.length ++
                 " chars, min: 20)"]
          else .ok []
        | .vDict ckvs => if ckvs.isEmpty then .ok [nm.pyStr ++ ": Empty data object"] else .ok []
        | .vList cxs => if cxs.isEmpty then .ok [nm.pyStr ++ ": Empty data list"] else .ok []
        | _ => .ok []
    | _ => .error (.attrErr "get")

/-- `DigestValidator._check_content_validity`. -/
def check_content_validity (sections : Value) : Except PyErr (List String) :=
  match sections.toIterList with
  | .error e => .error e
  | .ok xs => loopErrors content_section xs

/-- `DigestValidator.validate`: short-circuit on a missing `sections`
key, otherwise concatenate the errors of the four checks in order and
report validity as emptiness of the combined list. -/
def DigestValidator.validate (v : DigestValidator) (p : String → Option (ℚ × Bool))
    (now : ℚ) (digest_data : List (String × Value)) :
    Except PyErr (Bool × List String) :=
  match lookupStr digest_data "sections" with
  | none => .ok (false, ["Missing " ++ sqc ++ "sections" ++ sqc ++
      " field in digest data"])
  | some sections =>
    match check_completeness v sections with
    | .error e => .error e
    | .ok e1 =>
      match check_data_freshness p now v sections with
      | .error e => .error e
      | .ok e2 =>
        match check_source_reliability v sections with
        | .error e => .error e
        | .ok e3 =>
          match check_content_validity sections with
          | .error e => .error e
          | .ok e4 =>
            let errors := e1 ++ e2 ++ e3 ++ e4
            .ok (errors.isEmpty, errors)

/-- `DigestValidator.calculate_quality_score`: 1.0 when valid,
otherwise `max(0.0, 1.0 - num_errors / 10.0)`. -/
def DigestValidator.calculate_quality_score (v : DigestValidator)
    (p : String → Option (ℚ × Bool)) (now : ℚ) (digest_data : List (String × Value)) :
    Except PyErr ℚ :=
  match v.validate p now digest_data with
  | .error e => .error e
  | .ok (is_valid, errors) =>
    if !is_valid then .ok (max 0 (1 - (errors.length : ℚ) / 10))
    else .ok 1

/-- The record returned by `get_validation_summary`; the `timestamp`
field holds `datetime.now().isoformat()`, supplied as `nowIso`. -/
structure ValidationSummary where
  is_valid : Bool
  quality_score : ℚ
  error_count : Nat
  errors : List String
  timestamp : String

/-- `DigestValidator.get_validation_summary`. -/
def DigestValidator.get_validation_summary (v : DigestValidator)
    (p : String → Option (ℚ × Bool)) (now : ℚ) (nowIso : String)
    (digest_data : List (String × Value)) : Except PyErr ValidationSummary :=
  match v.validate p now digest_data with
  | .error e => .error e
  | .ok r =>
    match v.calculate_quality_score p now digest_data with
    | .error e => .error e
    | .ok q => .ok ⟨r.1, q, r.2.length, r.2, nowIso⟩

/-- Module-level convenience `validate_digest`: a default validator. -/
def validate_digest (p : String → Option (ℚ × Bool)) (now : ℚ)
    (digest_data : List (String × Value)) : Except PyErr (Bool × List String) :=
  defaultValidator.validate p now digest_data

/-- The quality score as a function of the error count (derived from
the body of `calculate_quality_score`, used to relate the score to the
error list of `validate`). -/
def scoreOfCount (n : Nat) : ℚ :=
  if n = 0 then 1 else max 0 (1 - (n : ℚ) / 10)

/-- A section record shaped as every producer in the repository shapes
it: a dict whose `name` value (when present) is a string and whose
`source` and `timestamp` values (when present) are strings or falsy. -/
def SectionOK (sec : Value) : Prop :=
  ∃ kvs, sec = .vDict kvs ∧
    (∀ w, lookupStr kvs "name" = some w → ∃ s, w = .vStr s) ∧
    (∀ w, lookupStr kvs "source" = some w → (∃ s, w = .vStr s) ∨ w.truthy = false) ∧
    (∀ w, lookupStr kvs "timestamp" = some w → (∃ s, w = .vStr s) ∨ w.truthy = false)

/-- A parser instance that accepts no timestamp string (used to fix
the abstract `fromisoformat` parameter in concrete evaluations). -/
def pNone : String → Option (ℚ × Bool) := fun _ => none

theorem scoreOfCount_nonneg (n : Nat) : 0 ≤ scoreOfCount n := by
  unfold scoreOfCount
  split
  · norm_num
  · exact le_max_left 0 _

theorem scoreOfCount_le_one (n : Nat) : scoreOfCount n ≤ 1 := by
  unfold scoreOfCount
  split
  · exact le_refl 1
  · apply max_le
    · norm_num
    · have h0 : (0 : ℚ) ≤ (n : ℚ) / 10 := by positivity
      linarith

theorem scoreOfCount_eq_one_iff (n : Nat) : scoreOfCount n = 1 ↔ n = 0 := by
  unfold scoreOfCount
  split
  · simp_all
  · rename_i hn
    simp only [hn, iff_false]
    intro h1
    rcases max_choice 0 (1 - (n : ℚ) / 10) with hm | hm
    · rw [hm] at h1
      norm_num at h1
    · rw [hm] at h1
      have hq : (n : ℚ) = 0 := by linarith
      have : n = 0 := by exact_mod_cast hq
      exact hn this

theorem scoreOfCount_anti {n m : Nat} (h : n ≤ m) :
    scoreOfCount m ≤ scoreOfCount n := by
  rcases Nat.eq_zero_or_pos n with hn | hn
  · subst hn
    have h0 : scoreOfCount 0 = 1 := by simp [scoreOfCount]
    rw [h0]
    exact scoreOfCount_le_one m
  · have hn' : n ≠ 0 := by omega
    have hm' : m ≠ 0 := by omega
    unfold scoreOfCount
    rw [if_neg hn', if_neg hm']
    apply max_le_max (le_refl 0)
    have hc : (n : ℚ) ≤ (m : ℚ) := by exact_mod_cast h
    linarith

theorem scoreOfCount_floor {n : Nat} (h : 10 ≤ n) : scoreOfCount n = 0 := by
  have hn : n ≠ 0 := by omega
  unfold scoreOfCount
  rw [if_neg hn]
  apply max_eq_left
  have hc : (10 : ℚ) ≤ (n : ℚ) := by exact_mod_cast h
  linarith

theorem validate_ok_shape {v : DigestValidator} {p : String → Option (ℚ × Bool)}
    {now : ℚ} {dd : List (String × Value)} {pr : Bool × List String}
    (h : v.validate p now dd = .ok pr) : pr.1 = pr.2.isEmpty := by
  unfold DigestValidator.validate at h
  split at h
  · injection h with h
    subst h
    rfl
  · split at h
    · exact Except.noConfusion h
    · split at h
      · exact Except.noConfusion h
      · split at h
        · exact Except.noConfusion h
        · split at h
          · exact Except.noConfusion h
          · injection h with h
            subst h
            rfl

theorem calc_eq_score {v : DigestValidator} {p : String → Option (ℚ × Bool)}
    {now : ℚ} {dd : List (String × Value)} {pr : Bool × List String}
    (h : v.validate p now dd = .ok pr) :
    v.calculate_quality_score p now dd = .ok (scoreOfCount pr.2.length) := by
  have hs := validate_ok_shape h
  unfold DigestValidator.calculate_quality_score
  rw [h]
  obtain ⟨b, errs⟩ := pr
  simp only at hs
  cases errs with
  | nil =>
    subst hs
    simp [scoreOfCount]
  | cons x xs =>
    subst hs
    simp [scoreOfCount]

/-- C1: for every input aggregate and fixed current time on which
`calculate_quality_score` returns a value s, we have 0 ≤ s ≤ 1, and
s = 1 exactly when `validate` on the same aggregate returns an empty
error list. -/
theorem quality_score_bounds (v : DigestValidator) (p : String → Option (ℚ × Bool))
    (now : ℚ) (dd : List (String × Value)) (pr : Bool × List String) (s : ℚ)
    (hv : v.validate p now dd = .ok pr)
    (hs : v.calculate_quality_score p now dd = .ok s) :
    0 ≤ s ∧ s ≤ 1 ∧ (s = 1 ↔ pr.2 = []) := by
  have hc := calc_eq_score hv
  rw [hs] at hc
  injection hc with hc
  subst hc
  refine ⟨scoreOfCount_nonneg _, scoreOfCount_le_one _, ?_⟩
  rw [scoreOfCount_eq_one_iff]
  exact List.length_eq_zero

/-- Witness for C1: an aggregate with an empty sections list yields one
completeness error and a score strictly inside the bounds. -/
theorem quality_score_bounds_witness :
    0 ≤ max 0 (1 - ((1 : ℕ) : ℚ) / 10) ∧ max 0 (1 - ((1 : ℕ) : ℚ) / 10) ≤ 1 ∧
      (max 0 (1 - ((1 : ℕ) : ℚ) / 10) = 1 ↔
        (["Missing required sections: market, sports, tech, weather"] :
          List String) = []) :=
  quality_score_bounds defaultValidator pNone 0 [("sections", .vList [])]
    (false, ["Missing required sections: market, sports, tech, weather"])
    (max 0 (1 - ((1 : ℕ) : ℚ) / 10)) rfl rfl

/-- C2: an aggregate without a `sections` key makes `validate` return
`(False, ["Missing 'sections' field in digest data"])` — exactly one
error — whatever its other fields, its configuration, the clock or the
parser: the four checks are never consulted. -/
theorem missing_sections_shortcircuit (v : DigestValidator)
    (p : String → Option (ℚ × Bool)) (now : ℚ) (dd : List (String × Value))
    (h : lookupStr dd "sections" = none) :
    v.validate p now dd =
      .ok (false, ["Missing " ++ sqc ++ "sections" ++ sqc ++
        " field in digest data"]) := by
  unfold DigestValidator.validate
  rw [h]

/-- Witness for C2: a concrete aggregate carrying only a date field. -/
theorem missing_sections_shortcircuit_witness :
    DigestValidator.validate defaultValidator pNone 0
      [("date", .vStr "2025-01-01")] =
      .ok (false, ["Missing " ++ sqc ++ "sections" ++ sqc ++
        " field in digest data"]) :=
  missing_sections_shortcircuit defaultValidator pNone 0
    [("date", .vStr "2025-01-01")] rfl

/-- C3: whenever validation yields n ≥ 1 errors, the quality score is
`max(0, 1 - n/10)`, and from 10 errors on it is exactly 0. -/
theorem quality_score_formula (v : DigestValidator) (p : String → Option (ℚ × Bool))
    (now : ℚ) (dd : List (String × Value)) (pr : Bool × List String)
    (hv : v.validate p now dd = .ok pr) (h1 : 1 ≤ pr.2.length) :
    v.calculate_quality_score p now dd =
        .ok (max 0 (1 - (pr.2.length : ℚ) / 10)) ∧
      (10 ≤ pr.2.length → v.calculate_quality_score p now dd = .ok 0) := by
  have hc := calc_eq_score hv
  have hn : pr.2.length ≠ 0 := by omega
  constructor
  · rw [hc]
    unfold scoreOfCount
    rw [if_neg hn]
  · intro h10
    rw [hc, scoreOfCount_floor h10]

/-- Witness for C3: the empty-sections aggregate produces one error and
the linear-penalty score. -/
theorem quality_score_formula_witness :
    DigestValidator.calculate_quality_score defaultValidator pNone 0
        [("sections", .vList [])] =
        .ok (max 0 (1 - (([("Missing required sections: " ++
          "market, sports, tech, weather")] : List String).length : ℚ) / 10)) ∧
      (10 ≤ ([("Missing required sections: " ++
          "market, sports, tech, weather")] : List String).length →
        DigestValidator.calculate_quality_score defaultValidator pNone 0
          [("sections", .vList [])] = .ok 0) :=
  quality_score_formula defaultValidator pNone 0 [("sections", .vList [])]
    (false, ["Missing required sections: market, sports, tech, weather"])
    rfl (by decide)

/-- C4: at a fixed configuration, parser and current time, an aggregate
with at most as many validation errors as another receives at least as
high a quality score. -/
theorem quality_monotone (v : DigestValidator) (p : String → Option (ℚ × Bool))
    (now : ℚ) (ddA ddB : List (String × Value)) (prA prB : Bool × List String)
    (hA : v.validate p now ddA = .ok prA) (hB : v.validate p now ddB = .ok prB)
    (hle : prA.2.length ≤ prB.2.length) :
    ∃ sA sB, v.calculate_quality_score p now ddA = .ok sA ∧
      v.calculate_quality_score p now ddB = .ok sB ∧ sB ≤ sA :=
  ⟨scoreOfCount prA.2.length, scoreOfCount prB.2.length,
    calc_eq_score hA, calc_eq_score hB, scoreOfCount_anti hle⟩

/-- Witness for C4: an aggregate missing the sections key versus one
with an empty sections list, one error each. -/
theorem quality_monotone_witness :
    ∃ sA sB, DigestValidator.calculate_quality_score defaultValidator pNone 0
        [] = .ok sA ∧
      DigestValidator.calculate_quality_score defaultValidator pNone 0
        [("sections", .vList [])] = .ok sB ∧ sB ≤ sA :=
  quality_monotone defaultValidator pNone 0 [] [("sections", .vList [])]
    (false, ["Missing " ++ sqc ++ "sections" ++ sqc ++
      " field in digest data"])
    (false, ["Missing required sections: market, sports, tech, weather"])
    rfl rfl (by decide)

/-- C9: two validators differing only in `min_reliability_score` agree
on `validate`, `calculate_quality_score` and `get_validation_summary`
for every aggregate, parser and time: the field is inert. -/
theorem min_reliability_inert (a r r' : ℚ) (req : List String)
    (p : String → Option (ℚ × Bool)) (now : ℚ) (nowIso : String)
    (dd : List (String × Value)) :
    (DigestValidator.mk a r req).validate p now dd =
        (DigestValidator.mk a r' req).validate p now dd ∧
      (DigestValidator.mk a r req).calculate_quality_score p now dd =
        (DigestValidator.mk a r' req).calculate_quality_score p now dd ∧
      (DigestValidator.mk a r req).get_validation_summary p now nowIso dd =
        (DigestValidator.mk a r' req).get_validation_summary p now nowIso dd :=
  ⟨rfl, rfl, rfl⟩

theorem tryFresh_str (p : String → Option (ℚ × Bool)) (now : ℚ)
    (v : DigestValidator) (nm : Value) (ts : String) (t : ℚ) (aw : Bool)
    (hp : parseTS p ts = some (t, aw)) :
    tryFresh p now v nm (.vStr ts) =
      if aw = true then .error (.typeErr naive_aware_msg)
      else .ok (if v.max_data_age_hours * 3600 < now - t
                then [fresh_err_msg nm (now - t) v.max_data_age_hours]
                else []) := by
  unfold parseTS at hp
  unfold tryFresh fromiso pyContainsStr callFromIso
  cases hT : strContainsSub ts "T" with
  | true =>
    rw [if_pos hT] at hp
    simp only [hT, hp]
    cases aw with
    | true => rfl
    | false =>
      simp only [Bool.false_eq_true, if_false]
      split <;> rfl
  | false =>
    rw [if_neg (by simp [hT])] at hp
    simp only [hT]
    unfold callFromIsoV callFromIso
    simp only [hp]
    cases aw with
    | true => rfl
    | false =>
      simp only [Bool.false_eq_true, if_false]
      split <;> rfl

theorem freshness_section_parsed (p : String → Option (ℚ × Bool)) (now : ℚ)
    (v : DigestValidator) (sec nm : Value) (ts : String) (t : ℚ) (aw : Bool)
    (hn : sec.get "name" (.vStr "unknown") = .ok nm)
    (ht : sec.get "timestamp" .vNone = .ok (.vStr ts))
    (hne : ts ≠ "")
    (hp : parseTS p ts = some (t, aw)) :
    freshness_section p now v sec =
      .ok (if aw = true then [invalid_ts_msg nm (.vStr ts) naive_aware_msg]
           else if v.max_data_age_hours * 3600 < now - t
           then [fresh_err_msg nm (now - t) v.max_data_age_hours]
           else []) := by
  have htr : (Value.vStr ts).truthy = true := by
    simp [Value.truthy, hne]
  unfold freshness_section
  simp only [hn, ht, htr, Bool.not_true, Bool.false_eq_true, if_false]
  rw [tryFresh_str p now v nm ts t aw hp]
  cases aw with
  | true => rfl
  | false => rfl

/-- C5 (counterexample): a fresh, parseable timestamp CAN yield a
freshness-check error.  `...T12:00:00Z` is normalized and parses to an
offset-aware datetime; the naive `datetime.now()` minus it raises
TypeError, caught into an invalid-format error, although the age (one
hour) is within the default 24-hour limit. -/
theorem fresh_aware_timestamp_counterexample :
    freshness_section
        (fun s => if s == "2024-01-01T12:00:00+00:00"
                  then some (0, true) else none) 3600
        defaultValidator
        (.vDict [("name", .vStr "weather"),
                 ("timestamp", .vStr "2024-01-01T12:00:00Z")]) =
      .ok ["weather: Invalid timestamp format " ++ sqc ++
           "2024-01-01T12:00:00Z" ++ sqc ++ ": " ++ naive_aware_msg] ∧
    (3600 - 0 : ℚ) ≤ defaultValidator.max_data_age_hours * 3600 :=
  ⟨rfl, by norm_num [defaultValidator, mkDigestValidator]⟩

/-- C5 (amended): for a section whose timestamp is a non-empty string
parsing to time t, the freshness check behaves by awareness: an
offset-naive parse emits exactly one age error — reporting the age in
hours to one decimal and the configured maximum — when `now - t`
exceeds `max_data_age_hours`, and no error otherwise; an offset-aware
parse always emits exactly one invalid-timestamp-format error (the
naive-minus-aware TypeError is caught at the except). -/
theorem freshness_error_iff_stale (p : String → Option (ℚ × Bool)) (now : ℚ)
    (v : DigestValidator) (sec nm : Value) (ts : String) (t : ℚ) (aw : Bool)
    (hn : sec.get "name" (.vStr "unknown") = .ok nm)
    (ht : sec.get "timestamp" .vNone = .ok (.vStr ts))
    (hne : ts ≠ "")
    (hp : parseTS p ts = some (t, aw)) :
    freshness_section p now v sec =
      .ok (if aw = true then [invalid_ts_msg nm (.vStr ts) naive_aware_msg]
           else if v.max_data_age_hours * 3600 < now - t
           then [fresh_err_msg nm (now - t) v.max_data_age_hours]
           else []) :=
  freshness_section_parsed p now v sec nm ts t aw hn ht hne hp

/-- Witness for the amended C5: a naive timestamp one hour old against
the default 24-hour ceiling produces no freshness error. -/
theorem freshness_error_iff_stale_witness :
    freshness_section
        (fun s => if s == "2024-01-01T12:00:00"
                  then some (0, false) else none) 3600
        defaultValidator
        (.vDict [("name", .vStr "weather"),
                 ("timestamp", .vStr "2024-01-01T12:00:00")]) =
      .ok (if defaultValidator.max_data_age_hours * 3600 < 3600 - 0
           then [fresh_err_msg (.vStr "weather") (3600 - 0)
                   defaultValidator.max_data_age_hours] else []) :=
  freshness_error_iff_stale
    (fun s => if s == "2024-01-01T12:00:00" then some (0, false) else none)
    3600 defaultValidator
    (.vDict [("name", .vStr "weather"),
             ("timestamp", .vStr "2024-01-01T12:00:00")])
    (.vStr "weather") "2024-01-01T12:00:00" 0 false rfl rfl (by decide) rfl

/-- C10 (counterexample): future-dated data is NOT always treated as
fresh — a future timestamp with a UTC offset parses offset-aware, the
naive-minus-aware subtraction raises TypeError, and the section gets
an invalid-timestamp-format error although its age is negative and the
configured maximum is positive. -/
theorem future_aware_timestamp_counterexample :
    freshness_section
        (fun s => if s == "2030-01-01T00:00:00+00:00"
                  then some (7200, true) else none) 0
        defaultValidator
        (.vDict [("name", .vStr "sports"),
                 ("timestamp", .vStr "2030-01-01T00:00:00Z")]) =
      .ok ["sports: Invalid timestamp format " ++ sqc ++
           "2030-01-01T00:00:00Z" ++ sqc ++ ": " ++ naive_aware_msg] ∧
    (0 - 7200 : ℚ) < 0 ∧ (0 : ℚ) < defaultValidator.max_data_age_hours :=
  ⟨rfl, by norm_num, by norm_num [defaultValidator, mkDigestValidator]⟩

/-- C10 (amended): a section whose timestamp parses to a future,
offset-naive time (negative age) never receives a freshness error, for
every positive configured maximum; a future offset-aware timestamp
instead receives an invalid-timestamp-format error. -/
theorem future_timestamp_fresh (p : String → Option (ℚ × Bool)) (now : ℚ)
    (v : DigestValidator) (sec nm : Value) (ts : String) (t : ℚ)
    (hn : sec.get "name" (.vStr "unknown") = .ok nm)
    (ht : sec.get "timestamp" .vNone = .ok (.vStr ts))
    (hne : ts ≠ "")
    (hp : parseTS p ts = some (t, false))
    (hfut : now - t < 0) (hpos : 0 < v.max_data_age_hours) :
    freshness_section p now v sec = .ok [] := by
  rw [freshness_section_parsed p now v sec nm ts t false hn ht hne hp]
  simp only [Bool.false_eq_true, if_false]
  rw [if_neg (by intro hlt; linarith)]

/-- Witness for the amended C10: a naive timestamp two hours in the
future is treated as fresh under the default configuration. -/
theorem future_timestamp_fresh_witness :
    freshness_section
        (fun s => if s == "2030-01-01T00:00:00"
                  then some (7200, false) else none) 0
        defaultValidator
        (.vDict [("name", .vStr "weather"),
                 ("timestamp", .vStr "2030-01-01T00:00:00")]) = .ok [] :=
  future_timestamp_fresh
    (fun s => if s == "2030-01-01T00:00:00" then some (7200, false) else none)
    0 defaultValidator
    (.vDict [("name", .vStr "weather"),
             ("timestamp", .vStr "2030-01-01T00:00:00")])
    (.vStr "weather") "2030-01-01T00:00:00" 7200 rfl rfl (by decide) rfl
    (by norm_num) (by norm_num [defaultValidator, mkDigestValidator])

/-- C6: for a section dict carrying a `content` or `data` key whose
resolved payload is a string, the content check emits exactly one
too-short error — reporting the unstripped length against the minimum
of 20 — precisely when the stripped length is below 20. -/
theorem content_too_short_iff (kvs : List (String × Value)) (s : String)
    (hk : (hasKey kvs "content" || hasKey kvs "data") = true)
    (hres : resolvedContent kvs = .vStr s) :
    content_section (.vDict kvs) =
      .ok (if (strStrip s).length < 20
           then [((lookupStr kvs "name").getD (.vStr "unknown")).pyStr ++
                 ": Content too short (" ++ toString s.length ++
                 " chars, min: 20)"]
           else []) := by
  have hcc : (!(hasKey kvs "content") && !(hasKey kvs "data")) = false := by
    cases h1 : hasKey kvs "content" <;> cases h2 : hasKey kvs "data" <;>
      simp_all
  unfold content_section Value.get
  simp only [hcc, Bool.false_eq_true, if_false, hres]
  split <;> rfl

/-- Witness for C6: a five-character `data` payload yields exactly one
content error reporting length 5 against the minimum of 20. -/
theorem content_too_short_iff_witness :
    content_section (.vDict [("name", .vStr "x"), ("data", .vStr "short")]) =
      .ok ["x: Content too short (5 chars, min: 20)"] :=
  content_too_short_iff [("name", .vStr "x"), ("data", .vStr "short")]
    "short" rfl rfl

theorem lexLe_total (a b : List Char) : lexLe a b = true ∨ lexLe b a = true := by
  induction a generalizing b with
  | nil => left; rfl
  | cons x xs ih =>
    cases b with
    | nil => right; rfl
    | cons y ys =>
      unfold lexLe
      rcases Nat.lt_trichotomy x.toNat y.toNat with h | h | h
      · left
        simp [h]
      · have h1 : ¬ x.toNat < y.toNat := by omega
        have h2 : ¬ y.toNat < x.toNat := by omega
        rcases ih ys with hc | hc
        · left
          simp [h1, h2, hc]
        · right
          simp [h1, h2, hc]
      · right
        simp [h]

theorem lexLe_trans {a b c : List Char} (h1 : lexLe a b = true)
    (h2 : lexLe b c = true) : lexLe a c = true := by
  induction a generalizing b c with
  | nil => rfl
  | cons x xs ih =>
    cases b with
    | nil => simp [lexLe] at h1
    | cons y ys =>
      cases c with
      | nil => simp [lexLe] at h2
      | cons z zs =>
        unfold lexLe at h1 h2 ⊢
        by_cases hyx : y.toNat < x.toNat
        · have hxy : ¬ x.toNat < y.toNat := by omega
          simp [hxy, hyx] at h1
        · by_cases hzy : z.toNat < y.toNat
          · have hyz : ¬ y.toNat < z.toNat := by omega
            simp [hyz, hzy] at h2
          · by_cases hxy : x.toNat < y.toNat
            · by_cases hyz : y.toNat < z.toNat
              · simp [show x.toNat < z.toNat by omega]
              · have hyz' : y.toNat = z.toNat := by omega
                simp [show x.toNat < z.toNat by omega]
            · have hxy' : x.toNat = y.toNat := by omega
              by_cases hyz : y.toNat < z.toNat
              · simp [show x.toNat < z.toNat by omega]
              · have hyz' : y.toNat = z.toNat := by omega
                have hxz1 : ¬ x.toNat < z.toNat := by omega
                have hxz2 : ¬ z.toNat < x.toNat := by omega
                simp [hxy, hyx] at h1
                simp [hyz, hzy] at h2
                simp [hxz1, hxz2]
                exact ih h1 h2

theorem strLe_total (a b : String) : strLe a b = true ∨ strLe b a = true :=
  lexLe_total a.data b.data

theorem strLe_trans {a b c : String} (h1 : strLe a b = true)
    (h2 : strLe b c = true) : strLe a c = true :=
  lexLe_trans h1 h2

theorem mem_insertStr {a x : String} {l : List String} :
    a ∈ insertStr x l ↔ a = x ∨ a ∈ l := by
  induction l with
  | nil => simp [insertStr]
  | cons y ys ih =>
    unfold insertStr
    split
    · simp
    · simp only [List.mem_cons, ih]
      tauto

theorem mem_sortStrings {a : String} {l : List String} :
    a ∈ sortStrings l ↔ a ∈ l := by
  induction l with
  | nil => simp [sortStrings]
  | cons x xs ih => simp [sortStrings, mem_insertStr, ih]

theorem pairwise_insertStr {x : String} {l : List String}
    (h : l.Pairwise (fun a b => strLe a b = true)) :
    (insertStr x l).Pairwise (fun a b => strLe a b = true) := by
  induction l with
  | nil => simp [insertStr]
  | cons y ys ih =>
    unfold insertStr
    split
    · rename_i hxy
      refine List.Pairwise.cons ?_ h
      intro b hb
      rcases List.mem_cons.mp hb with rfl | hb'
      · exact hxy
      · exact strLe_trans hxy ((List.pairwise_cons.mp h).1 b hb')
    · rename_i hxy
      obtain ⟨hy, hys⟩ := List.pairwise_cons.mp h
      refine List.Pairwise.cons ?_ (ih hys)
      intro b hb
      rcases mem_insertStr.mp hb with rfl | hb'
      · rcases strLe_total b y with hc | hc
        · exact absurd hc hxy
        · exact hc
      · exact hy b hb'

theorem pairwise_sortStrings (l : List String) :
    (sortStrings l).Pairwise (fun a b => strLe a b = true) := by
  induction l with
  | nil => simp [sortStrings]
  | cons x xs ih => exact pairwise_insertStr ih

theorem contains_iff_mem {l : List String} {a : String} :
    l.contains a = true ↔ a ∈ l :=
  List.elem_iff

/-- C7 (counterexample): the source lower-cases only the present
names, not the configured required names.  With required name
"Weather" and a section named "Weather", the code reports "Weather" as
missing, while the spec-described check (both sides lower-cased)
reports nothing. -/
theorem completeness_lowercase_counterexample :
    check_completeness ⟨24, 4/5, ["Weather"]⟩
        (.vList [.vDict [("name", .vStr "Weather")]]) =
      .ok ["Missing required sections: Weather"] ∧
    check_completeness_spec ⟨24, 4/5, ["Weather"]⟩
        (.vList [.vDict [("name", .vStr "Weather")]]) = .ok [] :=
  ⟨rfl, rfl⟩

/-- C7 (amended): the completeness check compares the lower-cased
present names against the required names exactly as configured; when
required names are absent it emits exactly one combined error listing
the missing names sorted by code point and comma-joined, and names not
in the required list are never flagged. -/
theorem completeness_missing_amended (v : DigestValidator) (secs : List Value)
    (names : List String) (h : lowerNames secs = .ok names) :
    ∃ missing : List String,
      check_completeness v (.vList secs) =
        .ok (if missing.isEmpty then []
             else ["Missing required sections: " ++
               String.intercalate ", " missing]) ∧
      missing.Pairwise (fun a b => strLe a b = true) ∧
      (∀ r, r ∈ missing ↔ r ∈ v.required_sections ∧ r ∉ names) := by
  refine ⟨sortStrings ((v.required_sections.filter
      (fun r => !(names.contains r))).dedup), ?_, pairwise_sortStrings _, ?_⟩
  · unfold check_completeness Value.toIterList
    simp only [h]
    split <;> rfl
  · intro r
    rw [mem_sortStrings, List.mem_dedup, List.mem_filter]
    simp [contains_iff_mem]

/-- Witness for the amended C7: requiring only "weather" against a
lone "Sports" section flags "weather" as missing and never flags
"sports". -/
theorem completeness_missing_amended_witness :
    ∃ missing : List String,
      check_completeness ⟨24, 4/5, ["weather"]⟩
          (.vList [.vDict [("name", .vStr "Sports")]]) =
        .ok (if missing.isEmpty then []
             else ["Missing required sections: " ++
               String.intercalate ", " missing]) ∧
      missing.Pairwise (fun a b => strLe a b = true) ∧
      (∀ r, r ∈ missing ↔ r ∈ (["weather"] : List String) ∧
        r ∉ (["sports"] : List String)) :=
  completeness_missing_amended ⟨24, 4/5, ["weather"]⟩
    [.vDict [("name", .vStr "Sports")]] ["sports"] rfl

theorem nameOk {kvs : List (String × Value)}
    (h : ∀ w, lookupStr kvs "name" = some w → ∃ s, w = .vStr s)
    (dflt : String) :
    ∃ s, (lookupStr kvs "name").getD (.vStr dflt) = .vStr s := by
  cases hl : lookupStr kvs "name" with
  | none => exact ⟨dflt, rfl⟩
  | some w =>
    obtain ⟨s, rfl⟩ := h w hl
    exact ⟨s, rfl⟩

theorem anyTrustedLower_ok (ts : List String) (s : String) :
    ∃ b, anyTrustedLower ts (.vStr s) = .ok b := by
  induction ts with
  | nil => exact ⟨false, rfl⟩
  | cons t rest ih =>
    simp only [anyTrustedLower, Value.lower]
    split
    · exact ⟨true, rfl⟩
    · exact ih

theorem tryFresh_str_caught (p : String → Option (ℚ × Bool)) (now : ℚ)
    (v : DigestValidator) (nm : Value) (s : String) :
    (∃ es, tryFresh p now v nm (.vStr s) = .ok es) ∨
      (∃ m, tryFresh p now v nm (.vStr s) = .error (.valueErr m)) ∨
      (∃ m, tryFresh p now v nm (.vStr s) = .error (.typeErr m)) := by
  simp only [tryFresh, fromiso, pyContainsStr, callFromIsoV, callFromIso]
  cases hT : strContainsSub s "T" with
  | true =>
    simp only [hT]
    cases hp : p (strReplace s "Z" "+00:00") with
    | some ta =>
      simp only [hp]
      obtain ⟨t, aw⟩ := ta
      cases aw with
      | true =>
        right
        right
        exact ⟨_, rfl⟩
      | false =>
        left
        rcases lt_or_le (v.max_data_age_hours * 3600) (now - t) with hc | hc
        · exact ⟨_, if_pos hc⟩
        · exact ⟨_, if_neg (not_lt.mpr hc)⟩
    | none =>
      simp only [hp]
      right
      left
      exact ⟨_, rfl⟩
  | false =>
    simp only [hT]
    cases hp : p s with
    | some ta =>
      simp only [hp]
      obtain ⟨t, aw⟩ := ta
      cases aw with
      | true =>
        right
        right
        exact ⟨_, rfl⟩
      | false =>
        left
        rcases lt_or_le (v.max_data_age_hours * 3600) (now - t) with hc | hc
        · exact ⟨_, if_pos hc⟩
        · exact ⟨_, if_neg (not_lt.mpr hc)⟩
    | none =>
      simp only [hp]
      right
      left
      exact ⟨_, rfl⟩

theorem freshness_section_okOfShape (p : String → Option (ℚ × Bool)) (now : ℚ)
    (v : DigestValidator) (kvs : List (String × Value))
    (ht : ∀ w, lookupStr kvs "timestamp" = some w →
      (∃ s, w = .vStr s) ∨ w.truthy = false) :
    ∃ es, freshness_section p now v (.vDict kvs) = .ok es := by
  simp only [freshness_section, Value.get]
  cases hl : lookupStr kvs "timestamp" with
  | none =>
    simp only [hl, Option.getD_none, Value.truthy]
    exact ⟨_, rfl⟩
  | some w =>
    simp only [hl, Option.getD_some]
    rcases ht w hl with ⟨s, rfl⟩ | hfal
    · cases htr : (Value.vStr s).truthy with
      | false => exact ⟨_, rfl⟩
      | true =>
        simp only [Bool.not_true, Bool.false_eq_true, if_false]
        rcases tryFresh_str_caught p now v
            ((lookupStr kvs "name").getD (.vStr "unknown")) s with
          ⟨es, he⟩ | ⟨m, he⟩ | ⟨m, he⟩
        · simp only [he]
          exact ⟨es, rfl⟩
        · simp only [he]
          exact ⟨_, rfl⟩
        · simp only [he]
          exact ⟨_, rfl⟩
    · simp only [hfal, Bool.not_false, if_true]
      exact ⟨_, rfl⟩

theorem source_section_okOfShape (v : DigestValidator)
    (kvs : List (String × Value))
    (hn : ∀ w, lookupStr kvs "name" = some w → ∃ s, w = .vStr s)
    (hs : ∀ w, lookupStr kvs "source" = some w →
      (∃ s, w = .vStr s) ∨ w.truthy = false) :
    ∃ es, source_section v (.vDict kvs) = .ok es := by
  obtain ⟨ns, hns⟩ := nameOk hn "unknown"
  simp only [source_section, Value.get]
  cases hl : lookupStr kvs "source" with
  | none =>
    simp only [hl, Option.getD_none, Value.truthy]
    exact ⟨_, rfl⟩
  | some w =>
    simp only [hl, Option.getD_some]
    rcases hs w hl with ⟨s, rfl⟩ | hfal
    · cases htr : (Value.vStr s).truthy with
      | false => exact ⟨_, rfl⟩
      | true =>
        simp only [Bool.not_true, Bool.false_eq_true, if_false]
        simp only [hns, Value.lower]
        obtain ⟨b, hb⟩ := anyTrustedLower_ok (trustedFor (strLower ns)) s
        simp only [hb]
        cases hcond : (!b && !(trustedFor (strLower ns)).isEmpty) with
        | true => exact ⟨_, rfl⟩
        | false => exact ⟨_, rfl⟩
    · simp only [hfal, Bool.not_false, if_true]
      exact ⟨_, rfl⟩

theorem content_section_okTotal (kvs : List (String × Value)) :
    ∃ es, content_section (.vDict kvs) = .ok es := by
  simp only [content_section, Value.get]
  cases hc : (!(hasKey kvs "content") && !(hasKey kvs "data")) with
  | true => exact ⟨_, rfl⟩
  | false =>
    simp only [Bool.false_eq_true, if_false]
    split
    · split <;> exact ⟨_, rfl⟩
    · split <;> exact ⟨_, rfl⟩
    · split <;> exact ⟨_, rfl⟩
    · exact ⟨_, rfl⟩

theorem loopErrors_ok {f : Value → Except PyErr (List String)}
    {xs : List Value} (h : ∀ x ∈ xs, ∃ es, f x = .ok es) :
    ∃ es, loopErrors f xs = .ok es := by
  induction xs with
  | nil => exact ⟨[], rfl⟩
  | cons x rest ih =>
    obtain ⟨e1, he1⟩ := h x (List.mem_cons_self x rest)
    obtain ⟨e2, he2⟩ := ih (fun y hy => h y (List.mem_cons_of_mem x hy))
    refine ⟨e1 ++ e2, ?_⟩
    simp only [loopErrors, he1, he2]

theorem lowerNames_okOfShape {secs : List Value}
    (h : ∀ sec ∈ secs, SectionOK sec) :
    ∃ ns, lowerNames secs = .ok ns := by
  induction secs with
  | nil => exact ⟨[], rfl⟩
  | cons sec rest ih =>
    obtain ⟨kvs, rfl, hn, -, -⟩ := h sec (List.mem_cons_self sec rest)
    obtain ⟨s, hsv⟩ := nameOk hn ""
    obtain ⟨ns, hns⟩ := ih (fun y hy => h y (List.mem_cons_of_mem _ hy))
    refine ⟨strLower s :: ns, ?_⟩
    simp only [lowerNames, Value.get, hsv, Value.lower, hns]

/-- C8 (counterexample): the claim that `validate` never raises for
any section shape fails — a mapping aggregate whose sections list
holds the integer 5 makes the completeness check call `.get` on a
non-dict, an uncaught AttributeError. -/
theorem validate_raises_counterexample :
    DigestValidator.validate defaultValidator pNone 0
        [("sections", .vList [.vInt 5])] = .error (.attrErr "get") := rfl

/-- C8 (amended): `validate` terminates with an `(is_valid, errors)`
pair — converting malformed values into error strings rather than
raising — for every mapping aggregate whose `sections` value is a
sequence of mappings in which each present `name` value is a string
and each present `source` and `timestamp` value is a string or falsy
(the shapes every producer in this repository emits); outside that
shape the code can raise. -/
theorem validate_total_wellshaped (v : DigestValidator) (p : String → Option (ℚ × Bool))
    (now : ℚ) (dd : List (String × Value)) (secs : List Value)
    (hdd : lookupStr dd "sections" = some (.vList secs))
    (hsecs : ∀ sec ∈ secs, SectionOK sec) :
    ∃ r : Bool × List String, v.validate p now dd = .ok r := by
  have h1 : ∃ es, check_completeness v (.vList secs) = .ok es := by
    obtain ⟨ns, hns⟩ := lowerNames_okOfShape hsecs
    simp only [check_completeness, Value.toIterList, hns]
    split
    · exact ⟨_, rfl⟩
    · exact ⟨_, rfl⟩
  have h2 : ∃ es, check_data_freshness p now v (.vList secs) = .ok es := by
    simp only [check_data_freshness, Value.toIterList]
    refine loopErrors_ok ?_
    intro sec hsec
    obtain ⟨kvs, rfl, -, -, ht⟩ := hsecs sec hsec
    exact freshness_section_okOfShape p now v kvs ht
  have h3 : ∃ es, check_source_reliability v (.vList secs) = .ok es := by
    simp only [check_source_reliability, Value.toIterList]
    refine loopErrors_ok ?_
    intro sec hsec
    obtain ⟨kvs, rfl, hn, hs, -⟩ := hsecs sec hsec
    exact source_section_okOfShape v kvs hn hs
  have h4 : ∃ es, check_content_validity (.vList secs) = .ok es := by
    simp only [check_content_validity, Value.toIterList]
    refine loopErrors_ok ?_
    intro sec hsec
    obtain ⟨kvs, rfl, -, -, -⟩ := hsecs sec hsec
    exact content_section_okTotal kvs
  obtain ⟨e1, he1⟩ := h1
  obtain ⟨e2, he2⟩ := h2
  obtain ⟨e3, he3⟩ := h3
  obtain ⟨e4, he4⟩ := h4
  refine ⟨((e1 ++ e2 ++ e3 ++ e4).isEmpty, e1 ++ e2 ++ e3 ++ e4), ?_⟩
  simp only [DigestValidator.validate, hdd, he1, he2, he3, he4]

/-- Witness for the amended C8: a single well-shaped section carrying
only a data payload — validate returns a pair rather than raising. -/
theorem validate_total_wellshaped_witness :
    ∃ r : Bool × List String,
      DigestValidator.validate defaultValidator pNone 0
        [("sections", .vList
          [.vDict [("data", .vStr "abcdefghijklmnopqrstuvwxyz")]])] = .ok r :=
  validate_total_wellshaped defaultValidator pNone 0
    [("sections", .vList [.vDict [("data", .vStr "abcdefghijklmnopqrstuvwxyz")]])]
    [.vDict [("data", .vStr "abcdefghijklmnopqrstuvwxyz")]] rfl
    (fun sec hsec => by
      rw [List.mem_singleton] at hsec
      subst hsec
      refine ⟨[("data", .vStr "abcdefghijklmnopqrstuvwxyz")], rfl, ?_, ?_, ?_⟩
      · intro w h
        exact Option.noConfusion h
      · intro w h
        exact Option.noConfusion h
      · intro w h
        exact Option.noConfusion h)
